import Mathlib

/-!
Shallow embedding of `src/bookcover_wallpaper/layout.py` (class `MasonryLayout`)
from the shawnoster/bookcover-wallpaper repository, together with theorems
settling the layout-engine claims of the specification.

Modelling conventions:
* Python `a // b` (floor division on `int`) is `Int.fdiv` (floor semantics for
  every sign of the divisor, exactly as CPython).
* Python `int(a * p / q)` for integers `a, p` and positive `q` — true float
  division truncated toward zero — is modelled as the exact rational quotient
  truncated toward zero, `Int.tdiv (a * p) q`; this is exact for every
  magnitude below `2 ^ 52`, which covers the whole domain of the claims.
* `int(num_books / (target_rows * 0.8))` involves the double `0.8`, which is
  not exactly representable.  Over the reachable domain (each `target_rows`
  bucket constrains `num_books`, and for more than 70 books the divisor is the
  exact double `8.0`) the CPython value agrees with the exact rational value
  `(5 * num_books) // (4 * target_rows)` at every input except
  `num_books = 12`, where CPython yields `4` (`12 / 2.4000000000000004`
  truncates to `4`, not `5`).  `mcfbFloat` hard-codes that single deviation.
* The `ZeroDivisionError` that `_calculate_optimal_layout` raises when
  `target_cover_width + self.gap == 0` is modelled by returning `none`, and
  `calculate_layout` propagates it.
-/

namespace BookcoverWallpaper

/-- Canvas configuration held by the Python class `MasonryLayout`:
`width`, `height`, `gap` and `aspect_ratio` exactly as in `__init__`. -/
structure MasonryLayout where
  width : Int
  height : Int
  gap : Int
  aspect_ratio : Int × Int

/-- The target-row table at the top of `_calculate_optimal_layout`
(lines 77-92 of `layout.py`). -/
def targetRows (num_books : Int) : Int :=
  if num_books ≤ 12 then 3
  else if num_books ≤ 20 then 4
  else if num_books ≤ 30 then 5
  else if num_books ≤ 40 then 6
  else if num_books ≤ 50 then 7
  else if num_books ≤ 60 then 8
  else if num_books ≤ 70 then 9
  else 10

/-- CPython's value of `int(num_books / ideal_books_per_column)` where
`ideal_books_per_column = target_rows * 0.8` (lines 109-110 of `layout.py`).
Equal to the exact rational value everywhere on the reachable domain except
`num_books = 12`, where the double rounding of `0.8` makes CPython return 4. -/
def mcfbFloat (num_books : Int) : Int :=
  if num_books = 12 then 4
  else Int.fdiv (5 * num_books) (4 * targetRows num_books)

/-- Embedding of `MasonryLayout._calculate_optimal_layout` (lines 67-131 of
`layout.py`).  Returns `none` exactly when CPython raises `ZeroDivisionError`
(divisor `target_cover_width + gap = 0` in line 104). -/
def MasonryLayout.calculate_optimal_layout (L : MasonryLayout) (num_books : Int) :
    Option (Int × Int × Int) :=
  let target_rows := targetRows num_books
  let available_height := L.height - (target_rows + 1) * L.gap
  let target_cover_height := Int.fdiv available_height target_rows
  let target_cover_width :=
    Int.tdiv (target_cover_height * L.aspect_ratio.1) L.aspect_ratio.2
  if target_cover_width + L.gap = 0 then
    none
  else
    let max_columns := max 1 (Int.fdiv (L.width + L.gap) (target_cover_width + L.gap))
    let max_columns_for_books := max 1 (mcfbFloat num_books)
    let num_columns := min max_columns max_columns_for_books
    let max_books_per_column := Int.fdiv (num_books + num_columns - 1) num_columns
    let available_height2 := L.height - (max_books_per_column + 1) * L.gap
    let cover_height := Int.fdiv available_height2 max_books_per_column
    let cover_width := Int.tdiv (cover_height * L.aspect_ratio.1) L.aspect_ratio.2
    let total_width := num_columns * cover_width + (num_columns + 1) * L.gap
    if total_width > L.width then
      let cover_width2 := Int.fdiv (L.width - (num_columns + 1) * L.gap) num_columns
      let cover_height2 := Int.tdiv (cover_width2 * L.aspect_ratio.2) L.aspect_ratio.1
      some (num_columns, cover_width2, cover_height2)
    else
      some (num_columns, cover_width, cover_height)

/-- Index returned by Python's
`min(range(num_columns), key=lambda i: column_heights[i])` (line 53 of
`layout.py`): the least index of a minimal element. -/
def shortestCol : List Int → Nat
  | [] => 0
  | [_] => 0
  | a :: b :: t =>
      let j := shortestCol (b :: t)
      if a ≤ (b :: t).getD j 0 then 0 else j + 1

/-- The placement loop of `MasonryLayout.calculate_layout`
(lines 50-65 of `layout.py`), parametrised by the state `hs` of
`column_heights`. -/
def placeLoop {α : Type} (gap cover_width cover_height : Int) :
    List α → List Int → List (α × (Int × Int) × (Int × Int))
  | [], _ => []
  | p :: rest, hs =>
      let c := shortestCol hs
      let x := gap + (c : Int) * (cover_width + gap)
      let y := hs.getD c 0
      (p, (x, y), (cover_width, cover_height)) ::
        placeLoop gap cover_width cover_height rest
          (hs.set c (y + cover_height + gap))

/-- Instrumented companion of `placeLoop` recording, for each cover, the
chosen column index and the `y` coordinate; it performs exactly the same
state updates as `placeLoop`. -/
def placeCols {α : Type} (gap cover_height : Int) :
    List α → List Int → List (Nat × Int)
  | [], _ => []
  | _ :: rest, hs =>
      let c := shortestCol hs
      let y := hs.getD c 0
      (c, y) :: placeCols gap cover_height rest (hs.set c (y + cover_height + gap))

/-- Embedding of `MasonryLayout.calculate_layout` (lines 30-65 of
`layout.py`); `none` models the `ZeroDivisionError` propagated from
`_calculate_optimal_layout`. -/
def MasonryLayout.calculate_layout {α : Type} (L : MasonryLayout)
    (cover_paths : List α) : Option (List (α × (Int × Int) × (Int × Int))) :=
  if cover_paths.isEmpty then some []
  else
    match L.calculate_optimal_layout (cover_paths.length : Int) with
    | none => none
    | some (num_columns, cover_width, cover_height) =>
        some (placeLoop L.gap cover_width cover_height cover_paths
          (List.replicate num_columns.toNat L.gap))

/-- The tentative cover width of `_calculate_optimal_layout` before the
column count is fixed (lines 96-100 of `layout.py`). -/
def tentative_cover_width (L : MasonryLayout) (num_books : Int) : Int :=
  Int.tdiv
    (Int.fdiv (L.height - (targetRows num_books + 1) * L.gap) (targetRows num_books) *
      L.aspect_ratio.1)
    L.aspect_ratio.2

/-- The column count `num_columns` chosen in lines 104-112 of `layout.py`. -/
def num_columns_of (L : MasonryLayout) (num_books : Int) : Int :=
  min (max 1 (Int.fdiv (L.width + L.gap) (tentative_cover_width L num_books + L.gap)))
    (max 1 (mcfbFloat num_books))

/-- The ceiling division `max_books_per_column` of line 115 of `layout.py`. -/
def max_books_per_column_of (L : MasonryLayout) (num_books : Int) : Int :=
  Int.fdiv (num_books + num_columns_of L num_books - 1) (num_columns_of L num_books)

/-- The height-driven cell height of lines 118-119 of `layout.py`. -/
def height_cover_height (L : MasonryLayout) (num_books : Int) : Int :=
  Int.fdiv (L.height - (max_books_per_column_of L num_books + 1) * L.gap)
    (max_books_per_column_of L num_books)

/-- The height-driven cell width of line 122 of `layout.py`. -/
def height_cover_width (L : MasonryLayout) (num_books : Int) : Int :=
  Int.tdiv (height_cover_height L num_books * L.aspect_ratio.1) L.aspect_ratio.2

/-! Basic facts about `shortestCol`, the code's column-selection rule. -/

theorem getD_eq_get (l : List Int) (n : Nat) (h : n < l.length) :
    l.getD n 0 = l.get ⟨n, h⟩ := by
  simp [List.getD_eq_getElem?_getD, List.getElem?_eq_getElem h]

theorem shortestCol_lt_length : ∀ hs : List Int, hs ≠ [] → shortestCol hs < hs.length
  | [], h => absurd rfl h
  | [_], _ => by simp [shortestCol]
  | a :: b :: t, _ => by
      have ih := shortestCol_lt_length (b :: t) (by simp)
      simp only [shortestCol]
      split
      · simp
      · simpa using Nat.succ_lt_succ ih

theorem shortestCol_le :
    ∀ (hs : List Int) (j : Nat), j < hs.length →
      hs.getD (shortestCol hs) 0 ≤ hs.getD j 0
  | [], j, hj => by simp at hj
  | [_], j, hj => by
      have : j = 0 := by simpa using Nat.lt_one_iff.mp (by simpa using hj)
      subst this
      simp [shortestCol]
  | a :: b :: t, j, hj => by
      simp only [shortestCol]
      rcases le_or_lt a ((b :: t).getD (shortestCol (b :: t)) 0) with hle | hlt
      · rw [if_pos hle]
        match j with
        | 0 => simp
        | j + 1 =>
            have hj' : j < (b :: t).length := by simpa using Nat.lt_of_succ_lt_succ hj
            calc (a :: b :: t).getD 0 0 = a := by simp
              _ ≤ (b :: t).getD (shortestCol (b :: t)) 0 := hle
              _ ≤ (b :: t).getD j 0 := shortestCol_le (b :: t) j hj'
              _ = (a :: b :: t).getD (j + 1) 0 := by simp
      · rw [if_neg (not_le.mpr hlt)]
        match j with
        | 0 => simpa using le_of_lt hlt
        | j + 1 =>
            have hj' : j < (b :: t).length := by simpa using Nat.lt_of_succ_lt_succ hj
            simpa using shortestCol_le (b :: t) j hj'

theorem shortestCol_least :
    ∀ (hs : List Int) (j : Nat), j < shortestCol hs →
      hs.getD (shortestCol hs) 0 < hs.getD j 0
  | [], j, hj => by simp [shortestCol] at hj
  | [_], j, hj => by simp [shortestCol] at hj
  | a :: b :: t, j, hj => by
      simp only [shortestCol] at hj ⊢
      rcases le_or_lt a ((b :: t).getD (shortestCol (b :: t)) 0) with hle | hlt
      · rw [if_pos hle] at hj
        exact absurd hj (Nat.not_lt_zero j)
      · rw [if_neg (not_le.mpr hlt)] at hj ⊢
        match j with
        | 0 => simpa using hlt
        | j + 1 =>
            have hj' : j < shortestCol (b :: t) := Nat.lt_of_succ_lt_succ hj
            simpa using shortestCol_least (b :: t) j hj'

/-! Basic facts about the placement loop. -/

theorem placeLoop_length {α : Type} (gap cover_width cover_height : Int) :
    ∀ (xs : List α) (hs : List Int),
      (placeLoop gap cover_width cover_height xs hs).length = xs.length
  | [], _ => rfl
  | _ :: rest, hs => by
      simp [placeLoop, placeLoop_length gap cover_width cover_height rest]

theorem placeCols_length {α : Type} (gap cover_height : Int) :
    ∀ (xs : List α) (hs : List Int),
      (placeCols gap cover_height xs hs).length = xs.length
  | [], _ => rfl
  | _ :: rest, hs => by
      simp [placeCols, placeCols_length gap cover_height rest]

theorem placeLoop_eq_zipWith {α : Type} (gap cover_width cover_height : Int) :
    ∀ (xs : List α) (hs : List Int),
      placeLoop gap cover_width cover_height xs hs =
        List.zipWith
          (fun p cy =>
            (p, (gap + (cy.1 : Int) * (cover_width + gap), cy.2),
              (cover_width, cover_height)))
          xs (placeCols gap cover_height xs hs)
  | [], _ => rfl
  | p :: rest, hs => by
      simp only [placeLoop, placeCols, List.zipWith]
      rw [placeLoop_eq_zipWith gap cover_width cover_height rest]

theorem placeLoop_mem {α : Type} (gap cover_width cover_height : Int) :
    ∀ (xs : List α) (hs : List Int) (pl : α × (Int × Int) × (Int × Int)),
      pl ∈ placeLoop gap cover_width cover_height xs hs → hs ≠ [] →
      pl.2.2 = (cover_width, cover_height) ∧
        ∃ c : Nat, c < hs.length ∧ pl.2.1.1 = gap + (c : Int) * (cover_width + gap)
  | [], _, pl => by simp [placeLoop]
  | p :: rest, hs, pl => by
      intro hmem hne
      simp only [placeLoop, List.mem_cons] at hmem
      rcases hmem with rfl | hmem
      · exact ⟨rfl, shortestCol hs, shortestCol_lt_length hs hne, rfl⟩
      · have hne' : hs.set (shortestCol hs) (hs.getD (shortestCol hs) 0 + cover_height + gap) ≠ [] := by
          intro hcon
          exact hne (List.eq_nil_of_length_eq_zero (by simpa using congrArg List.length hcon))
        have ih := placeLoop_mem gap cover_width cover_height rest _ pl hmem hne'
        simpa [List.length_set] using ih

theorem placeCols_mem {α : Type} (gap cover_height : Int)
    (hgrow : 0 ≤ cover_height + gap) :
    ∀ (xs : List α) (hs : List Int) (c : Nat) (y : Int),
      (c, y) ∈ placeCols gap cover_height xs hs → hs ≠ [] →
      c < hs.length ∧ hs.getD c 0 ≤ y
  | [], _, c, y => by simp [placeCols]
  | _ :: rest, hs, c, y => by
      intro hmem hne
      simp only [placeCols, List.mem_cons] at hmem
      rcases hmem with heq | hmem
      · obtain ⟨rfl, rfl⟩ := Prod.mk.injEq .. ▸ heq
        exact ⟨shortestCol_lt_length hs hne, le_refl _⟩
      · have hc0 : shortestCol hs < hs.length := shortestCol_lt_length hs hne
        have hne' : hs.set (shortestCol hs) (hs.getD (shortestCol hs) 0 + cover_height + gap) ≠ [] := by
          intro hcon
          exact hne (List.eq_nil_of_length_eq_zero (by simpa using congrArg List.length hcon))
        have ih := placeCols_mem gap cover_height hgrow rest _ c y hmem hne'
        refine ⟨by simpa [List.length_set] using ih.1, le_trans ?_ ih.2⟩
        have hc : c < hs.length := by simpa [List.length_set] using ih.1
        by_cases hcc : c = shortestCol hs
        · subst hcc
          rw [getD_eq_get _ _ hc, getD_eq_get _ _ (by simpa [List.length_set] using hc)]
          simp only [List.get_eq_getElem, List.getElem_set_self]
          linarith
        · rw [getD_eq_get _ _ hc, getD_eq_get _ _ (by simpa [List.length_set] using hc)]
          simp [List.getElem_set_ne (fun h => hcc h.symm)]

theorem placeCols_pairwise {α : Type} (gap cover_height : Int)
    (hgrow : 0 ≤ cover_height + gap) :
    ∀ (xs : List α) (hs : List Int), hs ≠ [] →
      List.Pairwise (fun u v => u.1 = v.1 → u.2 + cover_height + gap ≤ v.2)
        (placeCols gap cover_height xs hs)
  | [], _, _ => by simp [placeCols]
  | _ :: rest, hs, hne => by
      simp only [placeCols]
      have hc0 : shortestCol hs < hs.length := shortestCol_lt_length hs hne
      have hne' : hs.set (shortestCol hs) (hs.getD (shortestCol hs) 0 + cover_height + gap) ≠ [] := by
        intro hcon
        exact hne (List.eq_nil_of_length_eq_zero (by simpa using congrArg List.length hcon))
      refine List.Pairwise.cons ?_ (placeCols_pairwise gap cover_height hgrow rest _ hne')
      rintro ⟨c, y⟩ hv hcol
      simp only at hcol
      subst hcol
      have hmem := placeCols_mem gap cover_height hgrow rest _ _ _ hv hne'
      refine le_trans (le_of_eq ?_) hmem.2
      have hc : shortestCol hs < (hs.set (shortestCol hs)
          (hs.getD (shortestCol hs) 0 + cover_height + gap)).length := by
        simpa [List.length_set] using hc0
      rw [getD_eq_get _ _ hc]
      simp [List.get_eq_getElem]

/-! Facts about the plan chosen by `calculate_optimal_layout`. -/

theorem plan_num_columns_pos (L : MasonryLayout) (num_books n cw ch : Int)
    (h : L.calculate_optimal_layout num_books = some (n, cw, ch)) : 1 ≤ n := by
  simp only [MasonryLayout.calculate_optimal_layout] at h
  split at h
  · exact absurd h (by simp)
  · split at h
    · simp only [Option.some.injEq, Prod.mk.injEq] at h
      obtain ⟨h1, -, -⟩ := h
      rw [← h1]
      exact le_min (le_max_left _ _) (le_max_left _ _)
    · simp only [Option.some.injEq, Prod.mk.injEq] at h
      obtain ⟨h1, -, -⟩ := h
      rw [← h1]
      exact le_min (le_max_left _ _) (le_max_left _ _)

theorem plan_width_bound (L : MasonryLayout) (num_books n cw ch : Int)
    (h : L.calculate_optimal_layout num_books = some (n, cw, ch)) :
    n * cw + (n + 1) * L.gap ≤ L.width := by
  have hn : 1 ≤ n := plan_num_columns_pos L num_books n cw ch h
  simp only [MasonryLayout.calculate_optimal_layout] at h
  split at h
  · exact absurd h (by simp)
  · split at h
    next hgt =>
      simp only [Option.some.injEq, Prod.mk.injEq] at h
      obtain ⟨h1, h2, -⟩ := h
      rw [h1] at h2
      rw [← h2]
      have hne : n ≠ 0 := by intro h0; rw [h0] at hn; norm_num at hn
      have hfe : Int.fdiv (L.width - (n + 1) * L.gap) n = (L.width - (n + 1) * L.gap) / n :=
        Int.fdiv_eq_ediv _ (by linarith)
      rw [hfe]
      have hml := Int.ediv_mul_le (L.width - (n + 1) * L.gap) hne
      linarith
    next hgt =>
      simp only [Option.some.injEq, Prod.mk.injEq] at h
      obtain ⟨h1, h2, -⟩ := h
      rw [h1] at h2 hgt
      rw [h2] at hgt
      linarith [le_of_not_lt hgt]

theorem calculate_layout_destruct {α : Type} (L : MasonryLayout) (xs : List α)
    (layout : List (α × (Int × Int) × (Int × Int))) (hxs : xs ≠ [])
    (h : L.calculate_layout xs = some layout) :
    ∃ n cw ch, L.calculate_optimal_layout (xs.length : Int) = some (n, cw, ch) ∧
      layout = placeLoop L.gap cw ch xs (List.replicate n.toNat L.gap) := by
  obtain ⟨p, rest, rfl⟩ := List.exists_cons_of_ne_nil hxs
  simp only [MasonryLayout.calculate_layout, List.isEmpty_cons, Bool.false_eq_true,
    if_false] at h
  rcases hopt : L.calculate_optimal_layout ((p :: rest).length : Int) with - | ⟨n, cw, ch⟩
  · rw [hopt] at h
    simp at h
  · rw [hopt] at h
    simp only [Option.some.injEq] at h
    exact ⟨n, cw, ch, rfl, h.symm⟩

theorem placement_x_bound (W g cw n : Int) (c : Nat) (hw : 0 < W) (hg : 0 ≤ g)
    (hn : 1 ≤ n) (hc : (c : Int) < n) (hbound : n * cw + (n + 1) * g ≤ W) :
    g + (c : Int) * (cw + g) + cw ≤ W := by
  rcases le_or_lt 0 (cw + g) with hd | hd
  · have h1 : ((c : Int) + 1) * (cw + g) ≤ n * (cw + g) :=
      mul_le_mul_of_nonneg_right (by linarith) hd
    nlinarith
  · have hcpos : (0 : Int) ≤ (c : Int) := Int.natCast_nonneg c
    nlinarith

theorem plan_ratio_bound (L : MasonryLayout) (num_books n cw ch : Int)
    (har1 : 0 < L.aspect_ratio.1) (har2 : 0 < L.aspect_ratio.2)
    (h : L.calculate_optimal_layout num_books = some (n, cw, ch))
    (hcw : 0 ≤ cw) (hch : 0 ≤ ch) :
    |cw * L.aspect_ratio.2 - ch * L.aspect_ratio.1| <
      max L.aspect_ratio.1 L.aspect_ratio.2 := by
  simp only [MasonryLayout.calculate_optimal_layout] at h
  split at h
  · exact absurd h (by simp)
  · split at h
    next hgt =>
      simp only [Option.some.injEq, Prod.mk.injEq] at h
      obtain ⟨h1, h2, h3⟩ := h
      rw [h2] at h3
      rw [← h3]
      have htd : (cw * L.aspect_ratio.2).tdiv L.aspect_ratio.1 =
          cw * L.aspect_ratio.2 / L.aspect_ratio.1 :=
        Int.tdiv_eq_ediv (by positivity) (le_of_lt har1)
      rw [htd]
      have hlow := Int.ediv_mul_le (cw * L.aspect_ratio.2) (ne_of_gt har1)
      have hhigh := Int.lt_ediv_add_one_mul_self (cw * L.aspect_ratio.2) har1
      rw [abs_lt]
      constructor
      · nlinarith [le_max_left L.aspect_ratio.1 L.aspect_ratio.2]
      · nlinarith [le_max_left L.aspect_ratio.1 L.aspect_ratio.2]
    next hgt =>
      simp only [Option.some.injEq, Prod.mk.injEq] at h
      obtain ⟨h1, h2, h3⟩ := h
      rw [h3] at h2
      rw [← h2]
      have htd : (ch * L.aspect_ratio.1).tdiv L.aspect_ratio.2 =
          ch * L.aspect_ratio.1 / L.aspect_ratio.2 :=
        Int.tdiv_eq_ediv (by positivity) (le_of_lt har2)
      rw [htd]
      have hlow := Int.ediv_mul_le (ch * L.aspect_ratio.1) (ne_of_gt har2)
      have hhigh := Int.lt_ediv_add_one_mul_self (ch * L.aspect_ratio.1) har2
      rw [abs_lt]
      constructor
      · nlinarith [le_max_right L.aspect_ratio.1 L.aspect_ratio.2]
      · nlinarith [le_max_right L.aspect_ratio.1 L.aspect_ratio.2]

theorem placeLoop_get {α : Type} (gap cover_width cover_height : Int) :
    ∀ (xs : List α) (hs : List Int) (i : Nat)
      (hi : i < (placeLoop gap cover_width cover_height xs hs).length)
      (hx : i < xs.length)
      (hc : i < (placeCols gap cover_height xs hs).length),
      (placeLoop gap cover_width cover_height xs hs).get ⟨i, hi⟩ =
        (xs.get ⟨i, hx⟩,
          (gap + (((placeCols gap cover_height xs hs).get ⟨i, hc⟩).1 : Int) *
              (cover_width + gap),
            ((placeCols gap cover_height xs hs).get ⟨i, hc⟩).2),
          (cover_width, cover_height))
  | [], _, i, _, hx, _ => by simp at hx
  | _ :: _, _, 0, _, _, _ => rfl
  | p :: rest, hs, i + 1, hi, hx, hc => by
      have := placeLoop_get gap cover_width cover_height rest
        (hs.set (shortestCol hs) (hs.getD (shortestCol hs) 0 + cover_height + gap))
        i (by simpa [placeLoop, placeLoop_length] using hi)
        (by simpa using hx)
        (by simpa [placeCols, placeCols_length] using hc)
      simpa [placeLoop, placeCols, List.get_cons_succ] using this

/-! Claim C1: the spec says the cell is sized by the area-overfill rule
`coverWidth = sqrt(canvasArea * 1.4 * ar.w / (coverCount * ar.h))`; the code
instead sizes it from a target-row table. -/

/-- Claim C1 (counterexample): at width 1920, height 1080, gap 4, aspect 2:3,
coverCount 12 — all positive, coverCount ≥ 1 — the code returns cover width
236.  The claimed equality `coverWidth = sqrt(canvasArea*F*ar.w/(coverCount*ar.h))`
with `F = 1.4 = 7/5` would force `coverWidth² * coverCount * ar.h * 5 =
canvasArea * 7 * ar.w`; the left side is 236²·12·3·5 = 10025280 while the
right side is 1920·1080·7·2 = 29030400, so the claim fails at this input. -/
theorem claim_c1_counterexample :
    (MasonryLayout.mk 1920 1080 4 (2, 3)).calculate_optimal_layout 12 =
      some (4, 236, 354) ∧
    (236 : Int) ^ 2 * (12 * 3) * 5 ≠ 1920 * 1080 * 7 * 2 := by
  exact ⟨by decide, by decide⟩

/-- Claim C1 (amended): the code sizes the cell from a target-row table, not
from canvas area: whenever the chosen plan is returned and the height-driven
row fits the canvas width, the cell height equals
`(height - (maxBooksPerColumn+1)*gap) // maxBooksPerColumn` and the cell width
is the truncation of `coverHeight * ar.w / ar.h`, with `maxBooksPerColumn` the
ceiling division of coverCount by the chosen column count.  No overfill factor
or square root is involved. -/
theorem claim_c1_amended (L : MasonryLayout) (num_books n cw ch : Int)
    (h : L.calculate_optimal_layout num_books = some (n, cw, ch))
    (hfits : num_columns_of L num_books * height_cover_width L num_books +
        (num_columns_of L num_books + 1) * L.gap ≤ L.width) :
    n = num_columns_of L num_books ∧
    ch = Int.fdiv (L.height - (max_books_per_column_of L num_books + 1) * L.gap)
        (max_books_per_column_of L num_books) ∧
    cw = Int.tdiv (ch * L.aspect_ratio.1) L.aspect_ratio.2 := by
  simp only [num_columns_of, height_cover_width, height_cover_height,
    max_books_per_column_of, tentative_cover_width] at hfits ⊢
  simp only [MasonryLayout.calculate_optimal_layout] at h
  split at h
  · exact absurd h (by simp)
  · split at h
    next hgt => exact absurd hfits (not_le.mpr hgt)
    next hgt =>
      simp only [Option.some.injEq, Prod.mk.injEq] at h
      obtain ⟨h1, h2, h3⟩ := h
      refine ⟨h1.symm, h3.symm, ?_⟩
      rw [h3] at h2
      exact h2.symm

/-- Claim C1 (witness): the amended statement instantiated at width 1920,
height 1080, gap 4, aspect 2:3, coverCount 12, where the plan is
(4 columns, 236, 354) and the height-driven row fits the canvas. -/
theorem claim_c1_witness :
    ((MasonryLayout.mk 1920 1080 4 (2, 3)).calculate_optimal_layout 12 =
      some (4, 236, 354)) ∧
    ((4 : Int) = num_columns_of (MasonryLayout.mk 1920 1080 4 (2, 3)) 12 ∧
      (354 : Int) = Int.fdiv
        (1080 - (max_books_per_column_of (MasonryLayout.mk 1920 1080 4 (2, 3)) 12 + 1) * 4)
        (max_books_per_column_of (MasonryLayout.mk 1920 1080 4 (2, 3)) 12) ∧
      (236 : Int) = Int.tdiv (354 * 2) 3) :=
  ⟨by decide,
    claim_c1_amended (MasonryLayout.mk 1920 1080 4 (2, 3)) 12 4 236 354
      (by decide) (by decide)⟩

/-! Claim C2: the spec says a too-large gap is clamped to numColumns = 1 and
coverWidth = max(1, width − 2·gap), and that the plan never has non-positive
cell dimensions.  The code has no such clamp. -/

/-- Claim C2 (counterexample): at width 100, height 100, gap 200, aspect 2:3,
coverCount 1 — a gap larger than the canvas — the code returns the plan
(1 column, cover width −300, cover height −450): the cover width is not
clamped to max(1, 100 − 2·200) = 1, and the returned cell dimensions are
negative, contradicting both parts of the claim. -/
theorem claim_c2_counterexample :
    (MasonryLayout.mk 100 100 200 (2, 3)).calculate_optimal_layout 1 =
      some (1, -300, -450) ∧
    (-300 : Int) ≠ max 1 (100 - 2 * 200) ∧ ¬(0 < (-300 : Int)) := by
  exact ⟨by decide, by decide, by decide⟩

/-- Claim C2 (amended): the only clamping the code performs is on the column
count — every returned plan has at least one column; the cover width is not
clamped and the returned cell dimensions can be non-positive when the gap is
larger than the canvas. -/
theorem claim_c2_amended (L : MasonryLayout) (num_books n cw ch : Int)
    (h : L.calculate_optimal_layout num_books = some (n, cw, ch)) : 1 ≤ n :=
  plan_num_columns_pos L num_books n cw ch h

/-- Claim C2 (witness): the amended statement at width 1920, height 1080,
gap 4, aspect 2:3, coverCount 12, whose plan has 4 ≥ 1 columns. -/
theorem claim_c2_witness :
    ((MasonryLayout.mk 1920 1080 4 (2, 3)).calculate_optimal_layout 12 =
      some (4, 236, 354)) ∧ (1 : Int) ≤ 4 :=
  ⟨by decide,
    claim_c2_amended (MasonryLayout.mk 1920 1080 4 (2, 3)) 12 4 236 354 (by decide)⟩

/-! Claim C3: the spec says the snap
`coverWidth = floor((canvasWidth - (numColumns+1)*gap) / numColumns)` is
applied unconditionally.  The code applies it only when the height-driven row
overflows the canvas width. -/

/-- Claim C3 (counterexample): at width 1920, height 1080, gap 4, aspect 2:3,
coverCount 12 the code returns cover width 236, while the snap formula for the
returned 4 columns gives floor((1920 − 5·4)/4) = 475 — so the snap is not
applied unconditionally. -/
theorem claim_c3_counterexample :
    (MasonryLayout.mk 1920 1080 4 (2, 3)).calculate_optimal_layout 12 =
      some (4, 236, 354) ∧
    Int.fdiv (1920 - (4 + 1) * 4) 4 = 475 ∧ (236 : Int) ≠ 475 := by
  exact ⟨by decide, by decide, by decide⟩

/-- Claim C3 (amended): the snap to the horizontal space runs only when the
height-driven row exceeds the canvas width; in that case the returned cell is
`coverWidth = (width - (numColumns+1)*gap) // numColumns` with
`coverHeight = int(coverWidth * ar.h / ar.w)` (truncation, not rounding). -/
theorem claim_c3_amended (L : MasonryLayout) (num_books n cw ch : Int)
    (h : L.calculate_optimal_layout num_books = some (n, cw, ch))
    (hover : L.width < num_columns_of L num_books * height_cover_width L num_books +
        (num_columns_of L num_books + 1) * L.gap) :
    n = num_columns_of L num_books ∧
    cw = Int.fdiv (L.width - (n + 1) * L.gap) n ∧
    ch = Int.tdiv (cw * L.aspect_ratio.2) L.aspect_ratio.1 := by
  simp only [num_columns_of, height_cover_width, height_cover_height,
    max_books_per_column_of, tentative_cover_width] at hover ⊢
  simp only [MasonryLayout.calculate_optimal_layout] at h
  split at h
  · exact absurd h (by simp)
  · simp only [Option.some.injEq, Prod.mk.injEq] at h
    obtain ⟨h1, h2, h3⟩ := h
    rw [h1] at h2 h3
    rw [h2] at h3
    exact ⟨h1.symm, h2.symm, h3.symm⟩

/-- Claim C3 (witness): the amended statement at width 50, height 555, gap 0,
aspect 4:2, coverCount 12, where the height-driven row (1 column of width 92)
overflows the 50-pixel canvas and the snap produces the plan (1, 50, 25). -/
theorem claim_c3_witness :
    ((MasonryLayout.mk 50 555 0 (4, 2)).calculate_optimal_layout 12 =
      some (1, 50, 25)) ∧
    ((1 : Int) = num_columns_of (MasonryLayout.mk 50 555 0 (4, 2)) 12 ∧
      (50 : Int) = Int.fdiv (50 - (1 + 1) * 0) 1 ∧
      (25 : Int) = Int.tdiv (50 * 2) 4) :=
  ⟨by decide,
    claim_c3_amended (MasonryLayout.mk 50 555 0 (4, 2)) 12 1 50 25
      (by decide) (by decide)⟩

/-! Claim C4: the spec says every placement satisfies 0 ≤ x and
x + w ≤ width for every valid input.  The right bound holds universally, but
0 ≤ x fails when a huge gap makes the cell width negative. -/

/-- Claim C4 (counterexample): at width 1, height 25, gap 7, aspect 4:1
(all satisfying the claim's validity conditions) with 9 covers, the code
returns a plan of 2 columns with cell (−16, −4), and the second placement
sits at x = −2 < 0, refuting `0 ≤ x`. -/
theorem claim_c4_counterexample :
    (MasonryLayout.mk 1 25 7 (4, 1)).calculate_layout (List.replicate 9 ()) =
      some [((), (7, 7), (-16, -4)), ((), (-2, 7), (-16, -4)),
        ((), (7, 10), (-16, -4)), ((), (-2, 10), (-16, -4)),
        ((), (7, 13), (-16, -4)), ((), (-2, 13), (-16, -4)),
        ((), (7, 16), (-16, -4)), ((), (-2, 16), (-16, -4)),
        ((), (7, 19), (-16, -4))] ∧
    ¬(0 ≤ (-2 : Int)) := by
  exact ⟨by decide, by decide⟩

/-- Claim C4 (amended): for every valid input (positive width, non-negative
gap) and every placement returned by `calculate_layout`, the horizontal bound
`x + w ≤ width` holds unconditionally, and `0 ≤ x` holds whenever the cell
width is non-negative (which covers every plan with positive cell size). -/
theorem claim_c4_amended {α : Type} (L : MasonryLayout) (xs : List α)
    (layout : List (α × (Int × Int) × (Int × Int)))
    (hw : 0 < L.width) (hg : 0 ≤ L.gap)
    (h : L.calculate_layout xs = some layout) :
    ∀ pl ∈ layout, pl.2.1.1 + pl.2.2.1 ≤ L.width ∧ (0 ≤ pl.2.2.1 → 0 ≤ pl.2.1.1) := by
  intro pl hpl
  rcases eq_or_ne xs [] with rfl | hxs
  · simp [MasonryLayout.calculate_layout] at h
    rw [h] at hpl
    simp at hpl
  · obtain ⟨n, cw, ch, hopt, rfl⟩ := calculate_layout_destruct L xs layout hxs h
    have hn := plan_num_columns_pos L _ n cw ch hopt
    have hbound := plan_width_bound L _ n cw ch hopt
    have hsne : (List.replicate n.toNat L.gap) ≠ [] := by
      rw [← List.length_pos, List.length_replicate]
      omega
    obtain ⟨hsz, c, hc, hx⟩ := placeLoop_mem L.gap cw ch xs _ pl hpl hsne
    have hcn : (c : Int) < n := by
      rw [List.length_replicate] at hc
      omega
    have hw1 : pl.2.2.1 = cw := by rw [hsz]
    constructor
    · rw [hx, hw1]
      exact placement_x_bound L.width L.gap cw n c hw hg hn hcn hbound
    · intro hwpos
      rw [hw1] at hwpos
      rw [hx]
      have hm := mul_nonneg (Int.natCast_nonneg c) (by linarith : (0 : Int) ≤ cw + L.gap)
      linarith

/-- Claim C4 (witness): the amended statement at width 1920, height 1080,
gap 4, aspect 2:3 with one cover, whose single placement is
((4,4), (714,1072)). -/
theorem claim_c4_witness :
    ((MasonryLayout.mk 1920 1080 4 (2, 3)).calculate_layout [()] =
      some [((), (4, 4), (714, 1072))]) ∧
    ((4 : Int) + 714 ≤ 1920 ∧ ((0 : Int) ≤ 714 → (0 : Int) ≤ 4)) :=
  ⟨by decide,
    claim_c4_amended (MasonryLayout.mk 1920 1080 4 (2, 3)) [()]
      [((), (4, 4), (714, 1072))] (by decide) (by decide) (by decide)
      ((), (4, 4), (714, 1072)) (by decide)⟩

/-! Claim C5: the spec says `calculate_layout` returns exactly coverCount
placements for every valid input.  The code can instead raise
`ZeroDivisionError`: for width 1, height 4, gap 3, aspect 1:1 and one cover
(all within the spec's valid domain), `target_cover_width + gap = -3 + 3 = 0`
and line 104 of `layout.py` divides by it.  The specification states the
engine "raises no errors for valid inputs" and the repository's own test
`test_masonry_layout` relies on a list being returned, so the claim reflects
the intent and the unguarded divisor is a code bug. -/

/-- Claim C5 (code bug, evaluation): at the failing input the embedded code
aborts (modelled as `none`) instead of returning one placement. -/
theorem claim_c5_bug :
    (MasonryLayout.mk 1 4 3 (1, 1)).calculate_layout [()] = none := by
  decide

/-! Claim C6: each cover goes to the column of minimum current height, ties
broken by lowest index, so the chosen column's pre-update height is ≤ every
other column's height. -/

/-- Claim C6 (confirmed): at every step of the placement loop the code picks
`shortestCol hs`, whose height is a minimum of the current column heights
(first conjunct), strictly below every column of smaller index (second
conjunct — the lowest-index tie-break), and the loop emits exactly that
column's position and advances its height (third conjunct). -/
theorem claim_c6 {α : Type} (gap cover_width cover_height : Int) (p : α)
    (rest : List α) (hs : List Int) :
    (∀ j, j < hs.length → hs.getD (shortestCol hs) 0 ≤ hs.getD j 0) ∧
    (∀ j, j < shortestCol hs → hs.getD (shortestCol hs) 0 < hs.getD j 0) ∧
    placeLoop gap cover_width cover_height (p :: rest) hs =
      (p, (gap + (shortestCol hs : Int) * (cover_width + gap),
          hs.getD (shortestCol hs) 0), (cover_width, cover_height)) ::
        placeLoop gap cover_width cover_height rest
          (hs.set (shortestCol hs) (hs.getD (shortestCol hs) 0 + cover_height + gap)) :=
  ⟨fun j hj => shortestCol_le hs j hj,
    fun j hj => shortestCol_least hs j hj,
    rfl⟩

/-- Claim C6 (witness): with heights [5, 3, 3] the code picks column 1 (the
first of the two tied minima): its height 3 is ≤ the height of column 0 and
strictly below it, and the loop emits position (10, 3) for gap 4 and cell
(2, 6), advancing the heights to [5, 13, 3]. -/
theorem claim_c6_witness :
    (([5, 3, 3] : List Int).getD (shortestCol [5, 3, 3]) 0 ≤
      ([5, 3, 3] : List Int).getD 0 0) ∧
    (([5, 3, 3] : List Int).getD (shortestCol [5, 3, 3]) 0 <
      ([5, 3, 3] : List Int).getD 0 0) ∧
    placeLoop 4 2 6 [(), ()] [5, 3, 3] =
      ((), (10, 3), (2, 6)) :: placeLoop 4 2 6 [()] [5, 13, 3] :=
  ⟨(claim_c6 4 2 6 () [()] [5, 3, 3]).1 0 (by decide),
    (claim_c6 4 2 6 () [()] [5, 3, 3]).2.1 0 (by decide),
    (claim_c6 4 2 6 () [()] [5, 3, 3]).2.2⟩

/-! Claim C7: the spec says that with the canvas held fixed, more covers never
get a taller cell.  That is false in general: the target-row table and the
column cap interact so that 24 covers can get taller cells than 12. -/

/-- Claim C7 (counterexample): at width 666, height 555, gap 0, aspect 4:2,
moving from 12 to 24 covers RAISES the cell height from 46 to 69 (12 covers
are forced into a single column of 12, 24 covers fit 3 columns of 8), so
increasing coverCount can increase the cell height. -/
theorem claim_c7_counterexample :
    (MasonryLayout.mk 666 555 0 (4, 2)).calculate_optimal_layout 12 =
      some (1, 92, 46) ∧
    (MasonryLayout.mk 666 555 0 (4, 2)).calculate_optimal_layout 24 =
      some (3, 138, 69) ∧
    (46 : Int) < 69 := by
  exact ⟨by decide, by decide, by decide⟩

/-- Claim C7 (amended): at the spec's concrete canvas — width 1920, height
1080, gap 4, aspect 2:3 — the cell height is non-increasing across coverCount
∈ {6, 12, 24, 48} (354, 354, 265, 175), and the coverCount-60 cell height 149
is strictly smaller than the coverCount-12 cell height 354. -/
theorem claim_c7_amended :
    (MasonryLayout.mk 1920 1080 4 (2, 3)).calculate_optimal_layout 6 =
      some (2, 236, 354) ∧
    (MasonryLayout.mk 1920 1080 4 (2, 3)).calculate_optimal_layout 12 =
      some (4, 236, 354) ∧
    (MasonryLayout.mk 1920 1080 4 (2, 3)).calculate_optimal_layout 24 =
      some (6, 176, 265) ∧
    (MasonryLayout.mk 1920 1080 4 (2, 3)).calculate_optimal_layout 48 =
      some (8, 116, 175) ∧
    (MasonryLayout.mk 1920 1080 4 (2, 3)).calculate_optimal_layout 60 =
      some (9, 99, 149) ∧
    (354 : Int) ≤ 354 ∧ (265 : Int) ≤ 354 ∧ (175 : Int) ≤ 265 ∧
    (149 : Int) < 354 := by
  refine ⟨by decide, by decide, by decide, by decide, by decide, ?_, ?_, ?_, ?_⟩ <;> decide

/-! Claim C8: the spec says every placement's w/h ratio is within ±1% of the
aspect ratio.  The code only guarantees one integer-rounding step, which for
small cells deviates far more than 1%. -/

/-- Claim C8 (counterexample): at width 12, height 7, gap 1, aspect 2:3 with
one cover, the placement's cell is (3, 5); the claim demands
|w/h − ar.w/ar.h| ≤ ar.w/(100·ar.h), i.e. 100·|w·ar.h − h·ar.w| ≤ h·ar.w,
but 100·|3·3 − 5·2| = 100 > 10 = 5·2 — the ratio 0.6 is 10% off 2/3. -/
theorem claim_c8_counterexample :
    (MasonryLayout.mk 12 7 1 (2, 3)).calculate_layout [()] =
      some [((), (1, 1), (3, 5))] ∧
    ¬(100 * |(3 : Int) * 3 - 5 * 2| ≤ 5 * 2) := by
  exact ⟨by decide, by decide⟩

/-- Claim C8 (amended): every returned placement's cell (w, h) with
non-negative entries satisfies the one-rounding-step bound
|w·ar.h − h·ar.w| < max ar.w ar.h; the ±1% tolerance therefore holds only
for sufficiently large cells, not universally. -/
theorem claim_c8_amended {α : Type} (L : MasonryLayout) (xs : List α)
    (layout : List (α × (Int × Int) × (Int × Int)))
    (har1 : 0 < L.aspect_ratio.1) (har2 : 0 < L.aspect_ratio.2)
    (h : L.calculate_layout xs = some layout) :
    ∀ pl ∈ layout, 0 ≤ pl.2.2.1 → 0 ≤ pl.2.2.2 →
      |pl.2.2.1 * L.aspect_ratio.2 - pl.2.2.2 * L.aspect_ratio.1| <
        max L.aspect_ratio.1 L.aspect_ratio.2 := by
  intro pl hpl hw0 hh0
  rcases eq_or_ne xs [] with rfl | hxs
  · simp [MasonryLayout.calculate_layout] at h
    rw [h] at hpl
    simp at hpl
  · obtain ⟨n, cw, ch, hopt, rfl⟩ := calculate_layout_destruct L xs layout hxs h
    have hn := plan_num_columns_pos L _ n cw ch hopt
    have hsne : (List.replicate n.toNat L.gap) ≠ [] := by
      rw [← List.length_pos, List.length_replicate]
      omega
    obtain ⟨hsz, -, -, -⟩ := placeLoop_mem L.gap cw ch xs _ pl hpl hsne
    have hw1 : pl.2.2.1 = cw := by rw [hsz]
    have hh1 : pl.2.2.2 = ch := by rw [hsz]
    rw [hw1] at hw0
    rw [hh1] at hh0
    rw [hw1, hh1]
    exact plan_ratio_bound L _ n cw ch har1 har2 hopt hw0 hh0

/-- Claim C8 (witness): the amended bound at width 1920, height 1080, gap 4,
aspect 2:3 with one cover, whose cell is (714, 1072):
|714·3 − 1072·2| = 2 < 3. -/
theorem claim_c8_witness :
    ((MasonryLayout.mk 1920 1080 4 (2, 3)).calculate_layout [()] =
      some [((), (4, 4), (714, 1072))]) ∧
    |(714 : Int) * 3 - 1072 * 2| < max 2 3 :=
  ⟨by decide,
    claim_c8_amended (MasonryLayout.mk 1920 1080 4 (2, 3)) [()]
      [((), (4, 4), (714, 1072))] (by decide) (by decide) (by decide)
      ((), (4, 4), (714, 1072)) (by decide) (by decide) (by decide)⟩

/-! Claim C9: determinism — identical inputs yield identical outputs.  The
embedded code is a pure function of the canvas configuration and the ordered
cover list, so two calls with equal inputs agree. -/

/-- Claim C9 (confirmed): `calculate_layout` is deterministic — it consults
nothing but the canvas configuration and the ordered cover list, so two calls
with identical inputs return identical placement sequences. -/
theorem claim_c9 {α : Type} (L1 L2 : MasonryLayout) (xs ys : List α)
    (hL : L1 = L2) (hxs : xs = ys) :
    L1.calculate_layout xs = L2.calculate_layout ys := by
  rw [hL, hxs]

/-- Claim C9 (witness): two runs at width 1920, height 1080, gap 4, aspect
2:3 on the same one-cover list coincide. -/
theorem claim_c9_witness :
    (MasonryLayout.mk 1920 1080 4 (2, 3)).calculate_layout [()] =
      (MasonryLayout.mk 1920 1080 4 (2, 3)).calculate_layout [()] :=
  claim_c9 (MasonryLayout.mk 1920 1080 4 (2, 3))
    (MasonryLayout.mk 1920 1080 4 (2, 3)) [()] [()] rfl rfl

/-! Claim C10: placements of one call are pairwise disjoint whenever the cell
dimensions are positive — different columns occupy disjoint x-intervals,
stacked covers in one column occupy disjoint y-intervals. -/

theorem x_separation (g cw : Int) (hg : 0 ≤ g) (hcw : 0 < cw) (ci cj : Nat)
    (hlt : ci < cj) :
    g + (ci : Int) * (cw + g) + cw ≤ g + (cj : Int) * (cw + g) := by
  have h1 : ((ci : Int) + 1) ≤ (cj : Int) := by exact_mod_cast hlt
  have h2 : ((ci : Int) + 1) * (cw + g) ≤ (cj : Int) * (cw + g) :=
    mul_le_mul_of_nonneg_right h1 (by linarith)
  nlinarith

/-- Claim C10 (confirmed): whenever the cell width and height of the returned
plan are positive, any two distinct placements of one `calculate_layout` call
are disjoint rectangles: their x-intervals or their y-intervals do not
overlap.  Covers in different columns are separated horizontally by the gap;
covers stacked in the same column are separated vertically because each
insertion advances that column's running height by coverHeight + gap. -/
theorem claim_c10 {α : Type} (L : MasonryLayout) (xs : List α)
    (layout : List (α × (Int × Int) × (Int × Int)))
    (hg : 0 ≤ L.gap) (h : L.calculate_layout xs = some layout)
    (i j : Nat) (hi : i < layout.length) (hj : j < layout.length) (hij : i ≠ j)
    (hcw : 0 < (layout.get ⟨i, hi⟩).2.2.1) (hch : 0 < (layout.get ⟨i, hi⟩).2.2.2) :
    (layout.get ⟨i, hi⟩).2.1.1 + (layout.get ⟨i, hi⟩).2.2.1 ≤
        (layout.get ⟨j, hj⟩).2.1.1 ∨
    (layout.get ⟨j, hj⟩).2.1.1 + (layout.get ⟨j, hj⟩).2.2.1 ≤
        (layout.get ⟨i, hi⟩).2.1.1 ∨
    (layout.get ⟨i, hi⟩).2.1.2 + (layout.get ⟨i, hi⟩).2.2.2 ≤
        (layout.get ⟨j, hj⟩).2.1.2 ∨
    (layout.get ⟨j, hj⟩).2.1.2 + (layout.get ⟨j, hj⟩).2.2.2 ≤
        (layout.get ⟨i, hi⟩).2.1.2 := by
  rcases eq_or_ne xs [] with rfl | hxs
  · simp [MasonryLayout.calculate_layout] at h
    rw [h] at hi
    simp at hi
  · obtain ⟨n, cw, ch, hopt, rfl⟩ := calculate_layout_destruct L xs layout hxs h
    have hn := plan_num_columns_pos L _ n cw ch hopt
    have hsne : (List.replicate n.toNat L.gap) ≠ [] := by
      rw [← List.length_pos, List.length_replicate]
      omega
    have hix : i < xs.length := by rw [placeLoop_length] at hi; exact hi
    have hjx : j < xs.length := by rw [placeLoop_length] at hj; exact hj
    have hic : i < (placeCols L.gap ch xs (List.replicate n.toNat L.gap)).length := by
      rw [placeCols_length]
      exact hix
    have hjc : j < (placeCols L.gap ch xs (List.replicate n.toNat L.gap)).length := by
      rw [placeCols_length]
      exact hjx
    have Hi := placeLoop_get L.gap cw ch xs _ i hi hix hic
    have Hj := placeLoop_get L.gap cw ch xs _ j hj hjx hjc
    rcases hci : (placeCols L.gap ch xs (List.replicate n.toNat L.gap)).get ⟨i, hic⟩
      with ⟨ci, yi⟩
    rcases hcj : (placeCols L.gap ch xs (List.replicate n.toNat L.gap)).get ⟨j, hjc⟩
      with ⟨cj, yj⟩
    rw [hci] at Hi
    rw [hcj] at Hj
    have hcw' : 0 < cw := by rw [Hi] at hcw; exact hcw
    have hch' : 0 < ch := by rw [Hi] at hch; exact hch
    rw [Hi, Hj]
    by_cases hcc : ci = cj
    · have P := placeCols_pairwise L.gap ch (by linarith) xs
        (List.replicate n.toNat L.gap) hsne
      rw [List.pairwise_iff_get] at P
      rcases Nat.lt_or_ge i j with hlt | hge
      · have hR := P ⟨i, hic⟩ ⟨j, hjc⟩ (Fin.mk_lt_mk.mpr hlt)
        rw [hci, hcj] at hR
        have hy := hR hcc
        right; right; left
        show yi + ch ≤ yj
        simp only at hy
        linarith
      · have hlt : j < i := lt_of_le_of_ne hge (fun e => hij e.symm)
        have hR := P ⟨j, hjc⟩ ⟨i, hic⟩ (Fin.mk_lt_mk.mpr hlt)
        rw [hci, hcj] at hR
        have hy := hR hcc.symm
        right; right; right
        show yj + ch ≤ yi
        simp only at hy
        linarith
    · rcases Nat.lt_or_ge ci cj with hlt | hge
      · left
        show L.gap + (ci : Int) * (cw + L.gap) + cw ≤ L.gap + (cj : Int) * (cw + L.gap)
        exact x_separation L.gap cw hg hcw' ci cj hlt
      · have hlt : cj < ci := lt_of_le_of_ne hge (fun e => hcc e.symm)
        right; left
        show L.gap + (cj : Int) * (cw + L.gap) + cw ≤ L.gap + (ci : Int) * (cw + L.gap)
        exact x_separation L.gap cw hg hcw' cj ci hlt

/-- Claim C10 (witness): at width 1920, height 1080, gap 4, aspect 2:3 with
two covers both in the single column, the two placements ((4,4),(356,534))
and ((4,542),(356,534)) are vertically disjoint: 4 + 534 ≤ 542. -/
theorem claim_c10_witness :
    ((MasonryLayout.mk 1920 1080 4 (2, 3)).calculate_layout [(), ()] =
      some [((), (4, 4), (356, 534)), ((), (4, 542), (356, 534))]) ∧
    ((4 : Int) + 356 ≤ 4 ∨ (4 : Int) + 356 ≤ 4 ∨
      (4 : Int) + 534 ≤ 542 ∨ (542 : Int) + 534 ≤ 4) :=
  ⟨by decide,
    claim_c10 (MasonryLayout.mk 1920 1080 4 (2, 3)) [(), ()]
      [((), (4, 4), (356, 534)), ((), (4, 542), (356, 534))]
      (by decide) (by decide) 0 1 (by decide) (by decide) (by decide)
      (by decide) (by decide)⟩

end BookcoverWallpaper
